import Mathlib

/-!
Verification of the mahjong-frontend client code.

The development shallowly embeds the two source files of the repository:

* `src/mahjong-frontend/src/app/core/socket.service.ts` — the `SocketService`
  class: message record shapes, the `emitAction` promise wrapper around
  socket.io acknowledgement callbacks, and the eight public action methods
  plus `join`.
* `src/mahjong-frontend/src/app/game/table.scene.ts` — the Phaser table
  scene: `makeHandKeys`, `formatTileLabel`, the snapshot queueing in
  `setSnapshots` / the dragend handler, the hand-order reconciliation in
  `syncAndDrawHand`, the discard guard in the drop and pointerup handlers,
  `seatAnchor`, `drawOtherRacks` and `drawClaimBanner`.

Pure functions are translated to Lean functions; the mutable class fields
become explicit state records threaded through step functions; JavaScript
`Map` objects are modelled as functions `α → Option β` updated pointwise
(`Map.set` overwrites, `Map.get` returns `undefined` as `none`); a
`new Promise` executor is modelled by the function from transport outcomes
to the final promise state that the registered callbacks induce.
-/

namespace Mahjong

/-! ## socket.service.ts : message shapes -/

/-- Record `AckMsg` from socket.service.ts (lines 45-50). -/
structure AckMsg where
  clientSeq : Nat
  ok : Bool
  error : Option String
  serverVersion : Option Nat
deriving DecidableEq, Repr

/-- The `kind` field of a CLAIM action (socket.service.ts lines 103-113). -/
inductive ClaimKind where
  | PASS
  | PUNG
  | KONG
deriving DecidableEq, Repr

/-- The `action` payloads built by the action methods of `SocketService`
(socket.service.ts lines 87-113 and 130-132). -/
inductive ClientAction where
  | START_GAME
  | PASS_SUBMIT (tiles : List String)
  | PICK
  | DISCARD (tileId : String)
  | CLAIM (kind : ClaimKind)
  | END_GAME
deriving DecidableEq, Repr

/-- The `game/action` message body `{ roomId, playerId, clientSeq, action }`
(socket.service.ts line 125). -/
structure ActionMsg where
  roomId : String
  playerId : String
  clientSeq : Nat
  action : ClientAction
deriving DecidableEq, Repr

/-- Payload of a `socket.emit` call: either the `room/join` body
`{ roomId, playerId }` (line 84) or a `game/action` body (line 125). -/
inductive WirePayload where
  | joinMsg (roomId playerId : String)
  | actionMsg (m : ActionMsg)
deriving DecidableEq, Repr

/-- One `socket.emit(event, payload, ...)` call. -/
structure EmittedMsg where
  event : String
  payload : WirePayload
deriving DecidableEq, Repr

/-! ## socket.service.ts : the promise wrapper -/

/-- Settlement state of a JavaScript promise. -/
inductive PromiseState where
  | pending
  | resolved (ack : AckMsg)
  | rejected
deriving DecidableEq, Repr

/-- What the transport does with one acknowledgement-carrying emit: either
the server acknowledgement callback is invoked with an `AckMsg`, or no
acknowledgement ever arrives (error or timeout). -/
inductive SocketOutcome where
  | ackReceived (ack : AckMsg)
  | ackFailure
deriving DecidableEq, Repr

/-- Mutable state of a `SocketService` instance: the `clientSeq` counter
(socket.service.ts line 59, initialised to 0). -/
structure SocketServiceState where
  clientSeq : Nat
deriving DecidableEq, Repr

/-- A fresh `SocketService` (`private clientSeq = 0`). -/
def initialService : SocketServiceState := ⟨0⟩

/-- Result of one action method call: the updated instance state, the
`socket.emit` calls the method body performs, and the returned promise,
given as the settlement each transport outcome leads to. -/
structure EmitResult where
  state : SocketServiceState
  emitted : List EmittedMsg
  settle : SocketOutcome → PromiseState

namespace SocketService

/-- Method `SocketService.emitAction` (socket.service.ts lines 115-129):
`this.clientSeq += 1`, then one `socket.emit('game/action', {...}, cb)`
inside `new Promise((resolve) => ...)` where `cb = (ack) => resolve(ack)`.
The executor registers no rejection path and no timeout, so the promise
resolves with the ack when the callback fires and stays pending on any
transport failure. -/
def emitAction (st : SocketServiceState) (roomId playerId : String)
    (action : ClientAction) : EmitResult :=
  let seq := st.clientSeq + 1
  { state := ⟨seq⟩
    emitted := [⟨"game/action", .actionMsg ⟨roomId, playerId, seq, action⟩⟩]
    settle := fun o =>
      match o with
      | .ackReceived a => .resolved a
      | .ackFailure => .pending }

/-- Method `join` (lines 83-85): a single ack-less `socket.emit('room/join', ...)`;
`clientSeq` is untouched. -/
def join (st : SocketServiceState) (roomId playerId : String) :
    SocketServiceState × List EmittedMsg :=
  (st, [⟨"room/join", .joinMsg roomId playerId⟩])

/-- Method `startGame` (lines 87-89). -/
def startGame (st : SocketServiceState) (roomId playerId : String) : EmitResult :=
  emitAction st roomId playerId .START_GAME

/-- Method `passSubmit` (lines 91-93). -/
def passSubmit (st : SocketServiceState) (roomId playerId : String)
    (tiles : List String) : EmitResult :=
  emitAction st roomId playerId (.PASS_SUBMIT tiles)

/-- Method `pick` (lines 95-97). -/
def pick (st : SocketServiceState) (roomId playerId : String) : EmitResult :=
  emitAction st roomId playerId .PICK

/-- Method `discard` (lines 99-101). -/
def discard (st : SocketServiceState) (roomId playerId : String)
    (tileId : String) : EmitResult :=
  emitAction st roomId playerId (.DISCARD tileId)

/-- Method `claimPass` (lines 103-105). -/
def claimPass (st : SocketServiceState) (roomId playerId : String) : EmitResult :=
  emitAction st roomId playerId (.CLAIM .PASS)

/-- Method `claimPung` (lines 107-109). -/
def claimPung (st : SocketServiceState) (roomId playerId : String) : EmitResult :=
  emitAction st roomId playerId (.CLAIM .PUNG)

/-- Method `claimKong` (lines 111-113). -/
def claimKong (st : SocketServiceState) (roomId playerId : String) : EmitResult :=
  emitAction st roomId playerId (.CLAIM .KONG)

/-- Method `endGame` (lines 130-132). -/
def endGame (st : SocketServiceState) (roomId playerId : String) : EmitResult :=
  emitAction st roomId playerId .END_GAME

end SocketService

/-! ## Sequences of calls on one SocketService instance -/

/-- One public method call on a `SocketService` instance, with its
arguments. -/
inductive Request where
  | join (roomId playerId : String)
  | startGame (roomId playerId : String)
  | passSubmit (roomId playerId : String) (tiles : List String)
  | pick (roomId playerId : String)
  | discard (roomId playerId : String) (tileId : String)
  | claimPass (roomId playerId : String)
  | claimPung (roomId playerId : String)
  | claimKong (roomId playerId : String)
  | endGame (roomId playerId : String)
deriving DecidableEq, Repr

/-- Whether a request is one of the action methods (everything except
`join`), i.e. goes through `emitAction`. -/
def Request.isAction : Request → Bool
  | .join _ _ => false
  | _ => true

/-- Dispatch one method call, returning the new instance state and the
emits it performed. -/
def processRequest (st : SocketServiceState) : Request → SocketServiceState × List EmittedMsg
  | .join r p => SocketService.join st r p
  | .startGame r p => let e := SocketService.startGame st r p; (e.state, e.emitted)
  | .passSubmit r p ts => let e := SocketService.passSubmit st r p ts; (e.state, e.emitted)
  | .pick r p => let e := SocketService.pick st r p; (e.state, e.emitted)
  | .discard r p t => let e := SocketService.discard st r p t; (e.state, e.emitted)
  | .claimPass r p => let e := SocketService.claimPass st r p; (e.state, e.emitted)
  | .claimPung r p => let e := SocketService.claimPung st r p; (e.state, e.emitted)
  | .claimKong r p => let e := SocketService.claimKong st r p; (e.state, e.emitted)
  | .endGame r p => let e := SocketService.endGame st r p; (e.state, e.emitted)

/-- Run a sequence of method calls on one instance, collecting every
emitted message in order. -/
def runRequests (st : SocketServiceState) : List Request → SocketServiceState × List EmittedMsg
  | [] => (st, [])
  | q :: qs =>
    let r1 := processRequest st q
    let r2 := runRequests r1.1 qs
    (r2.1, r1.2 ++ r2.2)

/-- The `clientSeq` values carried by the `game/action` messages of an emit
trace, in order. -/
def actionSeqs (es : List EmittedMsg) : List Nat :=
  es.filterMap fun e =>
    match e.payload with
    | .actionMsg m => some m.clientSeq
    | .joinMsg _ _ => none

/-! ## socket.service.ts : snapshot shapes used by the scene -/

/-- The `phase` field of `PublicSnapshot`
(socket.service.ts line 10, a string union). -/
inductive Phase where
  | lobby
  | passing
  | playing
  | claim
  | finished
deriving DecidableEq, Repr

/-- The string a `Phase` value stands for in the transport. -/
def Phase.asString : Phase → String
  | .lobby => "lobby"
  | .passing => "passing"
  | .playing => "playing"
  | .claim => "claim"
  | .finished => "finished"

/-- The `turnStage` field of `PublicSnapshot` (socket.service.ts line 11). -/
inductive TurnStage where
  | NEED_PICK
  | NEED_DISCARD
deriving DecidableEq, Repr

/-- The `claim` field of `PublicSnapshot` (socket.service.ts lines 19-23). -/
structure ClaimInfo where
  tileId : String
  fromSeat : Nat
  deadlineAt : Nat
deriving DecidableEq, Repr

/-- Record `PublicSnapshot` (socket.service.ts lines 6-32), restricted to the
fields the table scene reads (`status`, `pass`, `seats`, `dealerSeat` and
`exposures` are carried by the wire type but unused by the modelled scene
code). -/
structure PublicSnapshot where
  roomId : String
  phase : Phase
  turnStage : TurnStage
  claim : Option ClaimInfo
  currentTurnSeat : Nat
  wallCount : Nat
  discards : List String
  version : Nat
deriving DecidableEq, Repr

/-- Record `PrivateSnapshot` (socket.service.ts lines 34-43); `claimOptions` is
unused by the modelled scene code. -/
structure PrivateSnapshot where
  playerId : String
  seatIndex : Nat
  hand : List String
deriving DecidableEq, Repr

/-! ## table.scene.ts : pure helpers -/

/-- Function `formatTileLabel` (table.scene.ts lines 29-40). The regex
`^([BDC])(\d+)$` matches when the id is a B/D/C letter followed by one or
more decimal digits. -/
def formatTileLabel (id : String) : String :=
  if id = "J" ∨ id = "JOKER" then "JOKER"
  else if id = "F" then "FLOWER"
  else if id = "DR" then "DRAGON R"
  else if id = "DG" then "DRAGON G"
  else if id = "DW" then "DRAGON W"
  else
    match id.data with
    | [] => id
    | c :: rest =>
      if (c = 'B' ∨ c = 'D' ∨ c = 'C') ∧ rest ≠ [] ∧ rest.all Char.isDigit then
        (if c = 'B' then "BAM " else if c = 'D' then "DOT " else "CRAK ") ++ String.mk rest
      else id

/-- The template literal `` `${t}_${n}` `` used for instance keys
(table.scene.ts line 50): the tile id, an underscore, and the decimal
representation of the occurrence count. -/
def handKeyStr (t : String) (n : Nat) : String := t ++ "_" ++ Nat.repr n

/-- Update `cnt.set(t, n)` for the occurrence-count map of `makeHandKeys`
(table.scene.ts line 49), where `n` is `(cnt.get(t) ?? 0) + 1`. -/
def bumpCnt (cnt : String → Option Nat) (t : String) : String → Option Nat :=
  fun x => if x = t then some ((cnt t).getD 0 + 1) else cnt x

/-- Update `keyToTileId.set(k, t)` (table.scene.ts line 52): a pointwise map
update where the new binding shadows any old one. -/
def setKey (m : String → Option String) (k t : String) : String → Option String :=
  fun x => if x = k then some t else m x

/-- The loop body of `makeHandKeys` (table.scene.ts lines 43-55), threading
the `cnt` map, and building the `keyToTileId` map; JavaScript `Map`s are
modelled as functions to `Option` where `set` overwrites pointwise. -/
def makeHandKeysGo (cnt : String → Option Nat) (m : String → Option String) :
    List String → List String × (String → Option String)
  | [] => ([], m)
  | t :: rest =>
    let n := (cnt t).getD 0 + 1
    let k := handKeyStr t n
    let r := makeHandKeysGo (bumpCnt cnt t) (setKey m k t) rest
    (k :: r.1, r.2)

/-- Function `makeHandKeys` (table.scene.ts lines 43-55): instance keys `B7_1`,
`B7_2`, … for duplicate tile ids, plus the key-to-tile-id map. -/
def makeHandKeys (hand : List String) : List String × (String → Option String) :=
  makeHandKeysGo (fun _ => none) (fun _ => none) hand

/-- JavaScript `Array.prototype.indexOf`: index of the first occurrence,
`-1` when absent (used at table.scene.ts lines 190 and 923). -/
def jsIndexOf : List String → String → Int
  | [], _ => -1
  | x :: xs, k =>
    if x = k then 0
    else
      let r := jsIndexOf xs k
      if r = -1 then -1 else r + 1

/-! ## table.scene.ts : layout -/

/-- The `dir` field of the `SeatAnchor` interface
(table.scene.ts line 21, `'h' | 'v'`). -/
inductive RackDir where
  | h
  | v
deriving DecidableEq, Repr

/-- The `align` field of the `SeatAnchor` interface (table.scene.ts
line 22, `'start' | 'center' | 'end'`). -/
inductive AnchorAlign where
  | alignStart
  | alignCenter
  | alignEnd
deriving DecidableEq, Repr

/-- The `SeatAnchor` interface (table.scene.ts lines 18-23). Coordinates
are integers (`Math.floor` is applied by the producers); they may be
negative on small canvases. -/
structure SeatAnchor where
  x : Int
  y : Int
  dir : RackDir
  align : AnchorAlign
deriving DecidableEq, Repr

/-- Method `TableScene.seatAnchor` (table.scene.ts lines 552-557). Canvas width
and height are modelled as whole pixel counts; `Math.floor (w / 2)` is
integer division. -/
def seatAnchor (seatIndex : Nat) (w h : Nat) : SeatAnchor :=
  if seatIndex = 0 then ⟨(w : Int) / 2 - 160, (h : Int) - 120, .h, .alignCenter⟩
  else if seatIndex = 1 then ⟨(w : Int) - 70, (h : Int) / 2 - 160, .v, .alignCenter⟩
  else if seatIndex = 2 then ⟨(w : Int) / 2 - 160, 70, .h, .alignCenter⟩
  else ⟨36, (h : Int) / 2 - 160, .v, .alignCenter⟩

/-- The label string drawn next to an opponent rack
(table.scene.ts line 471); `backCount` is the constant 13. -/
def rackLabel (seat currentTurnSeat : Nat) : String :=
  "Seat " ++ Nat.repr seat ++ " | Tiles ~13" ++
    (if seat = currentTurnSeat then " (TURN)" else "")

/-- One rack bar plus label drawn by `drawOtherRacks`. -/
structure RackDraw where
  seat : Nat
  anchor : SeatAnchor
  label : String
deriving DecidableEq, Repr

/-- Method `TableScene.drawOtherRacks` (table.scene.ts lines 443-503): loop the
four seats, skip the viewer's seat, draw a rack bar at the seat anchor and
a label. -/
def drawOtherRacks (pub : PublicSnapshot) (priv : PrivateSnapshot) (w h : Nat) :
    List RackDraw :=
  ((List.range 4).filter fun s => s ≠ priv.seatIndex).map fun s =>
    ⟨s, seatAnchor s w h, rackLabel s pub.currentTurnSeat⟩

/-! ## table.scene.ts : guards and banner -/

/-- The `canDiscard` guard, identical at table.scene.ts lines 175-178,
721-724 and 913-916. -/
def canDiscardGuard (pub : PublicSnapshot) (priv : PrivateSnapshot) : Bool :=
  pub.phase == Phase.playing && pub.turnStage == TurnStage.NEED_DISCARD &&
    priv.seatIndex == pub.currentTurnSeat

/-- The `canPick` guard in `drawWall` (table.scene.ts lines 428-432),
including the `!!priv` conjunct. -/
def canPickGuard (pub : PublicSnapshot) (priv : Option PrivateSnapshot) : Bool :=
  match priv with
  | none => false
  | some pr =>
    pub.phase == Phase.playing && pub.turnStage == TurnStage.NEED_PICK &&
      pr.seatIndex == pub.currentTurnSeat

/-- The banner text built by `drawClaimBanner` (table.scene.ts line 946). -/
def claimBannerText (tileId : String) (fromSeat : Nat) : String :=
  "CLAIM: " ++ formatTileLabel tileId ++ " (from seat " ++ Nat.repr fromSeat ++ ")"

/-- The HUD info line (table.scene.ts lines 330-332). -/
def hudString (p : PublicSnapshot) : String :=
  "Room: " ++ p.roomId ++ " | Phase: " ++ p.phase.asString ++ " | Turn: " ++
    Nat.repr p.currentTurnSeat ++ " | Wall: " ++ Nat.repr p.wallCount ++
    " | v" ++ Nat.repr p.version

/-! ## table.scene.ts : scene state machine -/

/-- What one `renderAll` pass draws (the parts of table.scene.ts
lines 306-369 the claims are about: HUD text, the wall pick affordance,
the opponent racks, and the claim banner decision). -/
structure RenderOutput where
  hudText : String
  wallCanPick : Bool
  racks : List RackDraw
  banner : Option String

/-- The mutable scene fields of `TableScene` relevant to the claims
(table.scene.ts lines 63-100), plus the canvas size and a log of performed
renders. -/
structure SceneState where
  publicSnap : Option PublicSnapshot
  privateSnap : Option PrivateSnapshot
  created : Bool
  isDraggingHand : Bool
  pendingSnap : Option (Option PublicSnapshot × Option PrivateSnapshot)
  handOrder : List String
  keyToTileId : String → Option String
  w : Nat
  h : Nat
  renderLog : List RenderOutput

/-- The hand-order reconciliation inside `syncAndDrawHand`
(table.scene.ts lines 684-692): keep previously ordered keys that are
still present, then append the newly appeared keys. -/
def reconcileHandOrder (prevOrder keys : List String) : List String :=
  if prevOrder.isEmpty then keys
  else
    let kept := prevOrder.filter fun k => keys.contains k
    let missing := keys.filter fun k => ¬ kept.contains k
    kept ++ missing

/-- The hand state `syncAndDrawHand` reads and writes. -/
structure HandState where
  handOrder : List String
  keyToTileId : String → Option String

/-- Method `TableScene.syncAndDrawHand` (table.scene.ts lines 674-736), state
part: recompute instance keys from the snapshot hand, store the
key-to-tile-id map, and reconcile the local order (game-object creation,
destruction and positioning are display effects driven by this state). -/
def syncAndDrawHand (hs : HandState) (hand : List String) : HandState :=
  let r := makeHandKeys hand
  { keyToTileId := r.2, handOrder := reconcileHandOrder hs.handOrder r.1 }

/-- The drawing decisions of one `renderAll` pass over the stored
snapshots (table.scene.ts lines 306-369). -/
def renderAllOut (st : SceneState) : RenderOutput :=
  { hudText :=
      match st.publicSnap with
      | some p => hudString p
      | none => "Waiting…"
    wallCanPick :=
      match st.publicSnap with
      | some p => canPickGuard p st.privateSnap
      | none => false
    racks :=
      match st.publicSnap, st.privateSnap with
      | some p, some pr => drawOtherRacks p pr st.w st.h
      | _, _ => []
    banner :=
      match st.publicSnap, st.privateSnap with
      | some p, some pr =>
        if p.phase == Phase.claim then
          match p.claim with
          | some c =>
            if pr.seatIndex != c.fromSeat then
              some (claimBannerText c.tileId c.fromSeat)
            else none
          | none => none
        else none
      | _, _ => none }

/-- Method `TableScene.renderAll` as a state transformer: an early return when the
scene is not created; otherwise the hand state is synced when both
snapshots are present (line 351) and the pass's output is recorded. -/
def renderAllState (st : SceneState) : SceneState :=
  if st.created = false then st
  else
    let st1 :=
      match st.publicSnap, st.privateSnap with
      | some _, some pr =>
        let hs := syncAndDrawHand ⟨st.handOrder, st.keyToTileId⟩ pr.hand
        { st with handOrder := hs.handOrder, keyToTileId := hs.keyToTileId }
      | _, _ => st
    { st1 with renderLog := st1.renderLog ++ [renderAllOut st] }

/-- Externally triggered scene transitions the claims are about:
`setSnapshots` calls, the start of a hand-tile drag (the `dragstart`
handler, lines 142-149, for a game object with `isHandTile`), and the end
of one (the `dragend` handler, lines 203-229). -/
inductive SceneEvent where
  | setSnapshots (pub : Option PublicSnapshot) (priv : Option PrivateSnapshot)
  | dragStartHand
  | dragEndHand

/-- The scene step function. `setSnapshots` (lines 247-259) queues the
pair while a hand drag is in progress and otherwise stores it and
re-renders if created; `dragend` (lines 203-229) clears the dragging flag
and applies a queued pair, if any, with a re-render. -/
def sceneStep (st : SceneState) : SceneEvent → SceneState
  | .setSnapshots pub priv =>
    if st.isDraggingHand then { st with pendingSnap := some (pub, priv) }
    else
      let st1 := { st with publicSnap := pub, privateSnap := priv }
      if st1.created then renderAllState st1 else st1
  | .dragStartHand => { st with isDraggingHand := true }
  | .dragEndHand =>
    let st1 := { st with isDraggingHand := false }
    match st1.pendingSnap with
    | some pr =>
      renderAllState
        { st1 with pendingSnap := none, publicSnap := pr.1, privateSnap := pr.2 }
    | none => st1

/-! ## table.scene.ts : discard entry points -/

/-- Effects of the `drop` handler (table.scene.ts lines 163-201): whether
the discard callback `bridge.onHandTileClick(tileId, idx)` fires and with
what, and whether the tile is snapped back to its stored slot. -/
structure DropResult where
  callback : Option (String × Int)
  snapBack : Option String
deriving DecidableEq, Repr

/-- The `drop` handler (table.scene.ts lines 163-201). `onDiscardZone`
says whether the drop zone is the discard zone (`dz === this.discardZone`);
`dragKey` is the game object's `handKey` datum. -/
def onDrop (st : SceneState) (onDiscardZone : Bool) (dragKey : Option String) :
    DropResult :=
  if onDiscardZone = false then ⟨none, none⟩
  else
    match dragKey with
    | none => ⟨none, none⟩
    | some key =>
      match st.publicSnap, st.privateSnap with
      | some pub, some priv =>
        if canDiscardGuard pub priv = false then ⟨none, some key⟩
        else
          match st.keyToTileId key with
          | none => ⟨none, none⟩
          | some tileId => ⟨some (tileId, jsIndexOf st.handOrder key), none⟩
      | _, _ => ⟨none, none⟩

/-- The double-click bookkeeping fields of the scene
(table.scene.ts lines 103-104). -/
structure ClickState where
  lastClickAt : Int
  lastClickKey : Option String
deriving DecidableEq, Repr

/-- The `pointerup` handler installed on each hand tile
(table.scene.ts lines 896-929): double-click detection followed by the
discard guard; returns the updated click state and the callback invocation,
if any. `now` is `Date.now()`. -/
def onPointerUp (st : SceneState) (cs : ClickState) (key : String) (now : Int) :
    ClickState × Option (String × Int) :=
  if st.isDraggingHand then (cs, none)
  else
    let sameKey := cs.lastClickKey == some key
    let within : Bool := decide (now - cs.lastClickAt ≤ 280)
    let cs' : ClickState := ⟨now, some key⟩
    if !(sameKey && within) then (cs', none)
    else
      match st.publicSnap, st.privateSnap with
      | some pub, some priv =>
        if canDiscardGuard pub priv = false then (cs', none)
        else
          match st.keyToTileId key with
          | none => (cs', none)
          | some tileId => (cs', some (tileId, jsIndexOf st.handOrder key))
      | _, _ => (cs', none)

end Mahjong

open Mahjong

/-! ## Claims about the SocketService transport wrapper -/

/-- Claim C1: every action method of `SocketService` (startGame, passSubmit,
pick, discard, claimPass, claimPung, claimKong, endGame) returns a promise
that resolves with exactly the `AckMsg` value the acknowledgement callback
of its `game/action` emit is invoked with: the callback-style
acknowledgement is turned into a promise resolution. -/
theorem claim1_ack_becomes_resolution (st : SocketServiceState)
    (r p tid : String) (tiles : List String) (a : AckMsg) :
    (SocketService.startGame st r p).settle (.ackReceived a) = .resolved a ∧
    (SocketService.passSubmit st r p tiles).settle (.ackReceived a) = .resolved a ∧
    (SocketService.pick st r p).settle (.ackReceived a) = .resolved a ∧
    (SocketService.discard st r p tid).settle (.ackReceived a) = .resolved a ∧
    (SocketService.claimPass st r p).settle (.ackReceived a) = .resolved a ∧
    (SocketService.claimPung st r p).settle (.ackReceived a) = .resolved a ∧
    (SocketService.claimKong st r p).settle (.ackReceived a) = .resolved a ∧
    (SocketService.endGame st r p).settle (.ackReceived a) = .resolved a :=
  ⟨rfl, rfl, rfl, rfl, rfl, rfl, rfl, rfl⟩

/-- Claim C3, counterexample: the promise returned by an action method does
not reject when the emit fails to obtain an acknowledgement — it stays
pending, because `emitAction` wraps the emit in
`new Promise((resolve) => ...)` with no rejection path and no timeout. -/
theorem claim3_counterexample :
    (SocketService.discard initialService "room1" "alice" "B7").settle
        .ackFailure ≠ PromiseState.rejected ∧
    (SocketService.discard initialService "room1" "alice" "B7").settle
        .ackFailure = PromiseState.pending :=
  ⟨by decide, rfl⟩

/-- Claim C3, amended: on any transport failure to obtain an
acknowledgement, the promise returned by every action method stays pending
forever; no action promise ever rejects, because the `new Promise`
executor of `emitAction` registers only a resolve callback. -/
theorem claim3_amended_no_rejection (st : SocketServiceState)
    (r p tid : String) (tiles : List String) :
    ((SocketService.startGame st r p).settle .ackFailure = .pending ∧
     (SocketService.passSubmit st r p tiles).settle .ackFailure = .pending ∧
     (SocketService.pick st r p).settle .ackFailure = .pending ∧
     (SocketService.discard st r p tid).settle .ackFailure = .pending ∧
     (SocketService.claimPass st r p).settle .ackFailure = .pending ∧
     (SocketService.claimPung st r p).settle .ackFailure = .pending ∧
     (SocketService.claimKong st r p).settle .ackFailure = .pending ∧
     (SocketService.endGame st r p).settle .ackFailure = .pending) ∧
    ∀ o : SocketOutcome,
      (SocketService.startGame st r p).settle o ≠ .rejected ∧
      (SocketService.passSubmit st r p tiles).settle o ≠ .rejected ∧
      (SocketService.pick st r p).settle o ≠ .rejected ∧
      (SocketService.discard st r p tid).settle o ≠ .rejected ∧
      (SocketService.claimPass st r p).settle o ≠ .rejected ∧
      (SocketService.claimPung st r p).settle o ≠ .rejected ∧
      (SocketService.claimKong st r p).settle o ≠ .rejected ∧
      (SocketService.endGame st r p).settle o ≠ .rejected := by
  refine ⟨⟨rfl, rfl, rfl, rfl, rfl, rfl, rfl, rfl⟩, ?_⟩
  intro o
  cases o <;>
    exact ⟨(fun h => nomatch h), (fun h => nomatch h), (fun h => nomatch h),
      (fun h => nomatch h), (fun h => nomatch h), (fun h => nomatch h),
      (fun h => nomatch h), (fun h => nomatch h)⟩

/-- Claim C6: every action method performs exactly one
`socket.emit('game/action', { roomId, playerId, clientSeq, action })` with
the action payload determined by the method (START_GAME, PASS_SUBMIT with
tiles, PICK, DISCARD with tileId, CLAIM with kind PASS/PUNG/KONG,
END_GAME), and `join` performs exactly one
`socket.emit('room/join', { roomId, playerId })`. -/
theorem claim6_emitted_shapes (st : SocketServiceState)
    (r p tid : String) (tiles : List String) :
    (SocketService.startGame st r p).emitted =
      [⟨"game/action", .actionMsg ⟨r, p, st.clientSeq + 1, .START_GAME⟩⟩] ∧
    (SocketService.passSubmit st r p tiles).emitted =
      [⟨"game/action", .actionMsg ⟨r, p, st.clientSeq + 1, .PASS_SUBMIT tiles⟩⟩] ∧
    (SocketService.pick st r p).emitted =
      [⟨"game/action", .actionMsg ⟨r, p, st.clientSeq + 1, .PICK⟩⟩] ∧
    (SocketService.discard st r p tid).emitted =
      [⟨"game/action", .actionMsg ⟨r, p, st.clientSeq + 1, .DISCARD tid⟩⟩] ∧
    (SocketService.claimPass st r p).emitted =
      [⟨"game/action", .actionMsg ⟨r, p, st.clientSeq + 1, .CLAIM .PASS⟩⟩] ∧
    (SocketService.claimPung st r p).emitted =
      [⟨"game/action", .actionMsg ⟨r, p, st.clientSeq + 1, .CLAIM .PUNG⟩⟩] ∧
    (SocketService.claimKong st r p).emitted =
      [⟨"game/action", .actionMsg ⟨r, p, st.clientSeq + 1, .CLAIM .KONG⟩⟩] ∧
    (SocketService.endGame st r p).emitted =
      [⟨"game/action", .actionMsg ⟨r, p, st.clientSeq + 1, .END_GAME⟩⟩] ∧
    SocketService.join st r p = (st, [⟨"room/join", .joinMsg r p⟩]) :=
  ⟨rfl, rfl, rfl, rfl, rfl, rfl, rfl, rfl, rfl⟩

/-- Function `actionSeqs` distributes over concatenated emit traces. -/
theorem actionSeqs_append (a b : List EmittedMsg) :
    actionSeqs (a ++ b) = actionSeqs a ++ actionSeqs b :=
  List.filterMap_append a b _

/-- Unfolding `runRequests` at a cons. -/
theorem runRequests_cons (st : SocketServiceState) (q : Request) (qs : List Request) :
    runRequests st (q :: qs) =
      ((runRequests (processRequest st q).1 qs).1,
       (processRequest st q).2 ++ (runRequests (processRequest st q).1 qs).2) :=
  rfl

/-- Every method call either leaves `clientSeq` unchanged (`join`) or bumps
it by one (the action methods). -/
theorem processRequest_state (st : SocketServiceState) (q : Request) :
    (processRequest st q).1.clientSeq =
      if q.isAction then st.clientSeq + 1 else st.clientSeq := by
  cases q <;> rfl

/-- The `game/action` sequence numbers one method call emits: the bumped
counter for an action method, nothing for `join`. -/
theorem processRequest_actionSeqs (st : SocketServiceState) (q : Request) :
    actionSeqs (processRequest st q).2 =
      if q.isAction then [st.clientSeq + 1] else [] := by
  cases q <;> rfl

/-- The `clientSeq` values of the `game/action` messages emitted by a call
sequence started in state `st` are consecutive from `st.clientSeq + 1`,
one per action-method call; `join` consumes no sequence number. -/
theorem runRequests_actionSeqs (reqs : List Request) :
    ∀ st : SocketServiceState,
      actionSeqs (runRequests st reqs).2 =
        List.range' (st.clientSeq + 1) (reqs.countP (·.isAction)) ∧
      (runRequests st reqs).1.clientSeq =
        st.clientSeq + reqs.countP (·.isAction) := by
  induction reqs with
  | nil => intro st; simp [runRequests, actionSeqs]
  | cons q qs ih =>
    intro st
    obtain ⟨ihA, ihB⟩ := ih (processRequest st q).1
    rw [runRequests_cons]
    constructor
    · rw [actionSeqs_append, processRequest_actionSeqs, ihA, processRequest_state]
      by_cases hq : q.isAction
      · simp [hq, List.countP_cons, List.range'_succ]
      · simp [hq, List.countP_cons]
    · rw [ihB, processRequest_state]
      by_cases hq : q.isAction
      · simp [hq, List.countP_cons]
        try omega
      · simp [hq, List.countP_cons]
        try omega

/-- Claim C7: over any sequence of method calls on one fresh
`SocketService` instance, the `clientSeq` values carried by the emitted
`game/action` messages are exactly 1, 2, 3, …: strictly increasing,
starting at 1, incrementing by one per action; the i-th emitted action
(0-based `i`) carries `clientSeq = i + 1`, and `join` consumes no sequence
number. -/
theorem claim7_clientSeq_consecutive (reqs : List Request) :
    actionSeqs (runRequests initialService reqs).2 =
      List.range' 1 (reqs.countP (·.isAction)) ∧
    ∀ (i : Nat) (h : i < (actionSeqs (runRequests initialService reqs).2).length),
      (actionSeqs (runRequests initialService reqs).2).get ⟨i, h⟩ = i + 1 := by
  have h0 : actionSeqs (runRequests initialService reqs).2 =
      List.range' 1 (reqs.countP (·.isAction)) := by
    simpa [initialService] using (runRequests_actionSeqs reqs initialService).1
  refine ⟨h0, ?_⟩
  intro i h
  simp only [List.get_eq_getElem, h0]
  rw [List.getElem_range'_1]
  omega

/-! ## Claim C4 : snapshot queueing while dragging -/

/-- Function `renderAll` never changes the stored snapshots. -/
theorem renderAllState_publicSnap (st : SceneState) :
    (renderAllState st).publicSnap = st.publicSnap := by
  unfold renderAllState
  split
  · rfl
  · split <;> rfl

/-- Function `renderAll` never changes the stored private snapshot. -/
theorem renderAllState_privateSnap (st : SceneState) :
    (renderAllState st).privateSnap = st.privateSnap := by
  unfold renderAllState
  split
  · rfl
  · split <;> rfl

/-- Function `renderAll` never changes the queued pending pair. -/
theorem renderAllState_pendingSnap (st : SceneState) :
    (renderAllState st).pendingSnap = st.pendingSnap := by
  unfold renderAllState
  split
  · rfl
  · split <;> rfl

/-- Function `renderAll` never changes the dragging flag. -/
theorem renderAllState_isDraggingHand (st : SceneState) :
    (renderAllState st).isDraggingHand = st.isDraggingHand := by
  unfold renderAllState
  split
  · rfl
  · split <;> rfl

/-- On a created scene, one `renderAll` pass records exactly one render. -/
theorem renderAllState_renderLog (st : SceneState) (h : st.created = true) :
    ∃ out, (renderAllState st).renderLog = st.renderLog ++ [out] := by
  refine ⟨renderAllOut st, ?_⟩
  unfold renderAllState
  rw [if_neg (by simp [h])]
  split <;> rfl

/-- A `setSnapshots` call during a hand drag only overwrites the queued
pair. -/
theorem sceneStep_setSnapshots_dragging (st : SceneState)
    (pub : Option PublicSnapshot) (priv : Option PrivateSnapshot)
    (h : st.isDraggingHand = true) :
    sceneStep st (.setSnapshots pub priv) = { st with pendingSnap := some (pub, priv) } := by
  simp [sceneStep, h]

/-- Folding any non-empty burst of `setSnapshots` calls over a dragging
scene keeps everything except the queued pair, which ends as the last pair
of the burst. -/
theorem foldSetSnapshots_dragging
    (pairs : List (Option PublicSnapshot × Option PrivateSnapshot))
    (pr : Option PublicSnapshot × Option PrivateSnapshot) :
    ∀ st : SceneState, st.isDraggingHand = true → pairs.getLast? = some pr →
      pairs.foldl (fun s q => sceneStep s (.setSnapshots q.1 q.2)) st =
        { st with pendingSnap := some pr } := by
  induction pairs with
  | nil => intro st _ hl; cases hl
  | cons q qs ih =>
    intro st h hl
    rw [List.foldl_cons, sceneStep_setSnapshots_dragging st q.1 q.2 h]
    cases qs with
    | nil =>
      have hq : q = pr := by simpa using hl
      subst hq
      rfl
    | cons q2 qs2 =>
      have hl2 : (q2 :: qs2).getLast? = some pr := by
        rwa [List.getLast?_cons_cons] at hl
      rw [ih { st with pendingSnap := some q } h hl2]

/-- Ending a hand drag with a queued pair applies the pair and re-renders. -/
theorem sceneStep_dragEnd (st : SceneState)
    (pr : Option PublicSnapshot × Option PrivateSnapshot)
    (h : st.pendingSnap = some pr) :
    sceneStep st .dragEndHand =
      renderAllState
        { st with
            isDraggingHand := false
            pendingSnap := none
            publicSnap := pr.1
            privateSnap := pr.2 } := by
  cases st
  cases h
  rfl

/-- Claim C4: while a hand-tile drag is in progress, every `setSnapshots`
call leaves the stored snapshots and the render log untouched and only
queues the passed pair; when the drag ends, the most recently queued pair
is stored and exactly one re-render happens. With no drag in progress on a
created scene, `setSnapshots` stores the pair and triggers one full
re-render. -/
theorem claim4_snapshot_queueing :
    (∀ (st : SceneState)
       (pairs : List (Option PublicSnapshot × Option PrivateSnapshot))
       (pr : Option PublicSnapshot × Option PrivateSnapshot),
       st.isDraggingHand = true → st.created = true → pairs.getLast? = some pr →
       (pairs.foldl (fun s q => sceneStep s (.setSnapshots q.1 q.2)) st).publicSnap
           = st.publicSnap ∧
       (pairs.foldl (fun s q => sceneStep s (.setSnapshots q.1 q.2)) st).privateSnap
           = st.privateSnap ∧
       (pairs.foldl (fun s q => sceneStep s (.setSnapshots q.1 q.2)) st).renderLog
           = st.renderLog ∧
       (pairs.foldl (fun s q => sceneStep s (.setSnapshots q.1 q.2)) st).pendingSnap
           = some pr ∧
       (sceneStep (pairs.foldl (fun s q => sceneStep s (.setSnapshots q.1 q.2)) st)
           .dragEndHand).publicSnap = pr.1 ∧
       (sceneStep (pairs.foldl (fun s q => sceneStep s (.setSnapshots q.1 q.2)) st)
           .dragEndHand).privateSnap = pr.2 ∧
       (sceneStep (pairs.foldl (fun s q => sceneStep s (.setSnapshots q.1 q.2)) st)
           .dragEndHand).pendingSnap = none ∧
       (sceneStep (pairs.foldl (fun s q => sceneStep s (.setSnapshots q.1 q.2)) st)
           .dragEndHand).isDraggingHand = false ∧
       ∃ out, (sceneStep (pairs.foldl (fun s q => sceneStep s (.setSnapshots q.1 q.2)) st)
           .dragEndHand).renderLog = st.renderLog ++ [out]) ∧
    (∀ (st : SceneState) (pub : Option PublicSnapshot) (priv : Option PrivateSnapshot),
       st.isDraggingHand = false → st.created = true →
       (sceneStep st (.setSnapshots pub priv)).publicSnap = pub ∧
       (sceneStep st (.setSnapshots pub priv)).privateSnap = priv ∧
       ∃ out, (sceneStep st (.setSnapshots pub priv)).renderLog
           = st.renderLog ++ [out]) := by
  constructor
  · intro st pairs pr h hc hl
    rw [foldSetSnapshots_dragging pairs pr st h hl]
    rw [sceneStep_dragEnd { st with pendingSnap := some pr } pr rfl]
    refine ⟨rfl, rfl, rfl, rfl, ?_, ?_, ?_, ?_, ?_⟩
    · rw [renderAllState_publicSnap]
    · rw [renderAllState_privateSnap]
    · rw [renderAllState_pendingSnap]
    · rw [renderAllState_isDraggingHand]
    · exact renderAllState_renderLog _ hc
  · intro st pub priv h hc
    have hs : sceneStep st (.setSnapshots pub priv) =
        renderAllState { st with publicSnap := pub, privateSnap := priv } := by
      simp [sceneStep, h, hc]
    rw [hs]
    exact ⟨renderAllState_publicSnap _, renderAllState_privateSnap _,
      renderAllState_renderLog _ hc⟩

/-- A sample created scene with a hand drag in progress. -/
def sampleScene : SceneState :=
  { publicSnap := none, privateSnap := none, created := true,
    isDraggingHand := true, pendingSnap := none, handOrder := [],
    keyToTileId := fun _ => none, w := 640, h := 480, renderLog := [] }

/-- A sample public snapshot. -/
def samplePub : PublicSnapshot :=
  { roomId := "r", phase := .playing, turnStage := .NEED_DISCARD,
    claim := none, currentTurnSeat := 0, wallCount := 100, discards := [],
    version := 1 }

/-- A sample private snapshot. -/
def samplePriv : PrivateSnapshot :=
  { playerId := "alice", seatIndex := 0, hand := ["B7", "B7", "D2"] }

/-- Witness for C4: on a concrete dragging scene one queued pair is
applied at dragend, and on a concrete non-dragging scene the pair is
stored at once. -/
theorem claim4_witness :
    ([((some samplePub : Option PublicSnapshot),
       (some samplePriv : Option PrivateSnapshot))].foldl
        (fun s q => sceneStep s (.setSnapshots q.1 q.2)) sampleScene).pendingSnap
      = some (some samplePub, some samplePriv) ∧
    (sceneStep { sampleScene with isDraggingHand := false }
        (.setSnapshots (some samplePub) (some samplePriv))).publicSnap
      = some samplePub :=
  ⟨((claim4_snapshot_queueing.1 sampleScene
      [(some samplePub, some samplePriv)] (some samplePub, some samplePriv)
      rfl rfl rfl).2.2.2.1),
   (claim4_snapshot_queueing.2 { sampleScene with isDraggingHand := false }
      (some samplePub) (some samplePriv) rfl rfl).1⟩

/-! ## Claim C2 : hand-order reconciliation -/

/-- The reconciliation in `syncAndDrawHand` in the spec's phrasing: for a
non-empty previous order, the previous keys still present (in their old
relative order) followed by the new keys not previously present (in hand
order); membership in the result is exactly membership in the new key
list. -/
theorem reconcileHandOrder_spec (prev keys : List String) :
    reconcileHandOrder prev keys =
      (if prev = [] then keys
       else prev.filter (fun k => decide (k ∈ keys)) ++
         keys.filter (fun k => decide (k ∉ prev))) ∧
    ∀ k, k ∈ reconcileHandOrder prev keys ↔ k ∈ keys := by
  have hform : reconcileHandOrder prev keys =
      (if prev = [] then keys
       else prev.filter (fun k => decide (k ∈ keys)) ++
         keys.filter (fun k => decide (k ∉ prev))) := by
    unfold reconcileHandOrder
    by_cases h : prev = []
    · simp [h]
    · simp only [h, if_false, List.isEmpty_eq_false.mpr h, Bool.false_eq_true]
      congr 1
      · apply List.filter_congr
        intro a _
        simp
      · apply List.filter_congr
        intro a ha
        have hiff : (List.filter (fun k => keys.contains k) prev).contains a = true ↔
            a ∈ prev := by
          simp [List.mem_filter, ha]
        simp [hiff]
        intro hk
        exact absurd ha hk
  refine ⟨hform, ?_⟩
  intro k
  rw [hform]
  by_cases h : prev = []
  · simp [h]
  · simp only [h, if_false]
    simp only [List.mem_append, List.mem_filter, decide_eq_true_eq]
    constructor
    · rintro (⟨_, hk⟩ | ⟨hk, _⟩) <;> simp_all
    · intro hk
      by_cases hp : k ∈ prev
      · exact Or.inl ⟨hp, by simpa using hk⟩
      · exact Or.inr ⟨hk, by simpa using hp⟩

/-- Claim C2: applying a snapshot with private hand `H` through
`syncAndDrawHand` sets the local order to the instance keys `K` of `H`
when the previous order was empty, and otherwise to the previous order
restricted to keys still in `K` followed by the keys of `K` not previously
present, appended in hand order; afterwards the key set of the local order
is exactly the key set of `K`. -/
theorem claim2_syncAndDrawHand_reconciliation (prev : List String)
    (m : String → Option String) (hand : List String) :
    (syncAndDrawHand ⟨prev, m⟩ hand).handOrder =
      (if prev = [] then (makeHandKeys hand).1
       else prev.filter (fun k => decide (k ∈ (makeHandKeys hand).1)) ++
         (makeHandKeys hand).1.filter (fun k => decide (k ∉ prev))) ∧
    ∀ k, k ∈ (syncAndDrawHand ⟨prev, m⟩ hand).handOrder ↔
      k ∈ (makeHandKeys hand).1 := by
  have h := reconcileHandOrder_spec prev (makeHandKeys hand).1
  exact ⟨h.1, h.2⟩

/-! ## Claim C5 : the discard guard -/

/-- The Boolean `canDiscard` guard as the conjunction it computes. -/
theorem canDiscardGuard_iff (pub : PublicSnapshot) (priv : PrivateSnapshot) :
    canDiscardGuard pub priv = true ↔
      pub.phase = Phase.playing ∧ pub.turnStage = TurnStage.NEED_DISCARD ∧
        priv.seatIndex = pub.currentTurnSeat := by
  simp [canDiscardGuard, Bool.and_eq_true, and_assoc]

/-- Claim C5: neither the drop handler nor the double-click handler ever
invokes the discard callback unless the public phase is `playing`, the
turn stage is `NEED_DISCARD` and the viewer's seat is the current turn
seat; a discard-zone drop that fails this guard snaps the tile back to its
stored slot and invokes no callback. -/
theorem claim5_discard_guard :
    (∀ (st : SceneState) (zone : Bool) (key? : Option String) (t : String) (i : Int),
       (onDrop st zone key?).callback = some (t, i) →
       ∃ pub priv, st.publicSnap = some pub ∧ st.privateSnap = some priv ∧
         pub.phase = Phase.playing ∧ pub.turnStage = TurnStage.NEED_DISCARD ∧
         priv.seatIndex = pub.currentTurnSeat) ∧
    (∀ (st : SceneState) (key : String) (pub : PublicSnapshot) (priv : PrivateSnapshot),
       st.publicSnap = some pub → st.privateSnap = some priv →
       ¬ (pub.phase = Phase.playing ∧ pub.turnStage = TurnStage.NEED_DISCARD ∧
          priv.seatIndex = pub.currentTurnSeat) →
       onDrop st true (some key) = ⟨none, some key⟩) ∧
    (∀ (st : SceneState) (cs : ClickState) (key : String) (now : Int)
       (t : String) (i : Int),
       (onPointerUp st cs key now).2 = some (t, i) →
       ∃ pub priv, st.publicSnap = some pub ∧ st.privateSnap = some priv ∧
         pub.phase = Phase.playing ∧ pub.turnStage = TurnStage.NEED_DISCARD ∧
         priv.seatIndex = pub.currentTurnSeat) := by
  refine ⟨?_, ?_, ?_⟩
  · intro st zone key? t i h
    cases zone with
    | false => simp [onDrop] at h
    | true =>
      cases key? with
      | none => simp [onDrop] at h
      | some key =>
        cases hp : st.publicSnap with
        | none => simp [onDrop, hp] at h
        | some pub =>
          cases hv : st.privateSnap with
          | none => simp [onDrop, hp, hv] at h
          | some priv =>
            cases hg : canDiscardGuard pub priv with
            | false => simp [onDrop, hp, hv, hg] at h
            | true =>
              obtain ⟨h1, h2, h3⟩ := (canDiscardGuard_iff pub priv).mp hg
              exact ⟨pub, priv, rfl, rfl, h1, h2, h3⟩
  · intro st key pub priv hp hv hng
    have hg : canDiscardGuard pub priv = false := by
      cases hgc : canDiscardGuard pub priv
      · rfl
      · exact absurd ((canDiscardGuard_iff pub priv).mp hgc) hng
    simp [onDrop, hp, hv, hg]
  · intro st cs key now t i h
    cases hd : st.isDraggingHand with
    | true => simp [onPointerUp, hd] at h
    | false =>
      cases hcond : cs.lastClickKey == some key &&
          decide (now - cs.lastClickAt ≤ 280) with
      | false =>
        have hor : ¬ cs.lastClickKey = some key ∨ 280 + cs.lastClickAt < now := by
          by_cases hk : cs.lastClickKey = some key
          · right
            have hdec : decide (now - cs.lastClickAt ≤ 280) = false := by
              simpa [hk] using hcond
            have := of_decide_eq_false hdec
            omega
          · exact Or.inl hk
        simp [onPointerUp, hd, hor] at h
      | true =>
        cases hp : st.publicSnap with
        | none => simp [onPointerUp, hd, hp, hcond] at h
        | some pub =>
          cases hv : st.privateSnap with
          | none => simp [onPointerUp, hd, hp, hv, hcond] at h
          | some priv =>
            cases hg : canDiscardGuard pub priv with
            | false => simp [onPointerUp, hd, hp, hv, hg, hcond] at h
            | true =>
              obtain ⟨h1, h2, h3⟩ := (canDiscardGuard_iff pub priv).mp hg
              exact ⟨pub, priv, rfl, rfl, h1, h2, h3⟩

/-- A created, non-dragging scene whose snapshots put the viewer on turn
with `NEED_DISCARD`, with the hand keys of `["B7", "B7", "D2"]` loaded. -/
def sampleSceneTurn : SceneState :=
  { sampleScene with
      isDraggingHand := false
      publicSnap := some samplePub
      privateSnap := some samplePriv
      handOrder := (makeHandKeys ["B7", "B7", "D2"]).1
      keyToTileId := (makeHandKeys ["B7", "B7", "D2"]).2 }

/-- Witness for C5 at concrete scenes: a drop during the claim phase snaps
back without a callback, and a firing drop and double-click callback imply
the guard. -/
theorem claim5_witness :
    onDrop { sampleSceneTurn with
        publicSnap := some { samplePub with phase := Phase.claim } }
      true (some "B7_1") = ⟨none, some "B7_1"⟩ ∧
    (∃ pub priv,
      sampleSceneTurn.publicSnap = some pub ∧
      sampleSceneTurn.privateSnap = some priv ∧
      pub.phase = Phase.playing ∧ pub.turnStage = TurnStage.NEED_DISCARD ∧
      priv.seatIndex = pub.currentTurnSeat) ∧
    (∃ pub priv,
      sampleSceneTurn.publicSnap = some pub ∧
      sampleSceneTurn.privateSnap = some priv ∧
      pub.phase = Phase.playing ∧ pub.turnStage = TurnStage.NEED_DISCARD ∧
      priv.seatIndex = pub.currentTurnSeat) :=
  ⟨claim5_discard_guard.2.1
      { sampleSceneTurn with
          publicSnap := some { samplePub with phase := Phase.claim } }
      "B7_1" { samplePub with phase := Phase.claim } samplePriv rfl rfl
      (by decide),
   claim5_discard_guard.1 sampleSceneTurn true (some "B7_2") "B7" 1 (by decide),
   claim5_discard_guard.2.2 sampleSceneTurn ⟨100, some "B7_2"⟩ "B7_2" 200 "B7" 1
      (by decide)⟩

/-! ## Claim C8 : the claim banner -/

/-- Claim C8: a full render draws the claim banner iff the public phase is
`claim`, a claim is present, a private snapshot is present, and the
viewer's seat differs from the claim's `fromSeat`; the banner text names
the formatted claimed tile and the seat it came from. -/
theorem claim8_claim_banner (st : SceneState) (s : String) :
    (renderAllOut st).banner = some s ↔
      ∃ pub priv c, st.publicSnap = some pub ∧ st.privateSnap = some priv ∧
        pub.phase = Phase.claim ∧ pub.claim = some c ∧
        priv.seatIndex ≠ c.fromSeat ∧ s = claimBannerText c.tileId c.fromSeat := by
  cases hp : st.publicSnap with
  | none => simp [renderAllOut, hp]
  | some pub =>
    cases hv : st.privateSnap with
    | none => simp [renderAllOut, hp, hv]
    | some priv =>
      by_cases hph : pub.phase = Phase.claim
      · cases hc : pub.claim with
        | none => simp [renderAllOut, hp, hv, hph, hc]
        | some c =>
          by_cases hs : priv.seatIndex = c.fromSeat
          · simp [renderAllOut, hp, hv, hph, hc, hs]
          · simp [renderAllOut, hp, hv, hph, hc, hs]
            exact eq_comm
      · simp [renderAllOut, hp, hv, hph]

/-! ## Claim C10 : seat anchors and opponent racks -/

/-- Counterexample to C10 as stated: on a 190-pixel-tall canvas the
anchors of seat 0 and seat 2 coincide, so the four positions are not
pairwise distinct for every canvas size. -/
theorem claim10_counterexample :
    seatAnchor 0 640 190 = seatAnchor 2 640 190 := by decide

/-- Claim C10, amended: for every canvas size, seat 0 anchors
bottom-horizontal (y = h - 120), seat 1 right-vertical (x = w - 70),
seat 2 top-horizontal (y = 70) and seat 3 left-vertical (x = 36); the four
anchors are pairwise distinct whenever w ≠ 106 and h ≠ 190 (seats 0 and 2
coincide exactly at h = 190, seats 1 and 3 exactly at w = 106); and
`drawOtherRacks` draws rack bars and labels for exactly the three seats
different from the viewer's seat. -/
theorem claim10_amended :
    (∀ w h : Nat,
      (seatAnchor 0 w h).dir = RackDir.h ∧ (seatAnchor 0 w h).y = (h : Int) - 120 ∧
      (seatAnchor 0 w h).x = (w : Int) / 2 - 160 ∧
      (seatAnchor 1 w h).dir = RackDir.v ∧ (seatAnchor 1 w h).x = (w : Int) - 70 ∧
      (seatAnchor 1 w h).y = (h : Int) / 2 - 160 ∧
      (seatAnchor 2 w h).dir = RackDir.h ∧ (seatAnchor 2 w h).y = 70 ∧
      (seatAnchor 2 w h).x = (w : Int) / 2 - 160 ∧
      (seatAnchor 3 w h).dir = RackDir.v ∧ (seatAnchor 3 w h).x = 36 ∧
      (seatAnchor 3 w h).y = (h : Int) / 2 - 160) ∧
    (∀ w h : Nat, w ≠ 106 → h ≠ 190 →
      ∀ i j : Nat, i < 4 → j < 4 → i ≠ j →
        seatAnchor i w h ≠ seatAnchor j w h) ∧
    (∀ (pub : PublicSnapshot) (priv : PrivateSnapshot) (w h : Nat),
      priv.seatIndex < 4 →
      (drawOtherRacks pub priv w h).map (fun r => r.seat) =
        (List.range 4).filter (fun s => s ≠ priv.seatIndex) ∧
      (drawOtherRacks pub priv w h).length = 3) := by
  refine ⟨?_, ?_, ?_⟩
  · intro w h
    exact ⟨rfl, rfl, rfl, rfl, rfl, rfl, rfl, rfl, rfl, rfl, rfl, rfl⟩
  · intro w h hw hh i j hi hj hne heq
    interval_cases i <;> interval_cases j <;>
      simp [seatAnchor, SeatAnchor.mk.injEq] at heq hne ⊢ <;>
      omega
  · intro pub priv w h hlt
    constructor
    · have hcomp : ((fun r : RackDraw => r.seat) ∘ fun s =>
          (⟨s, seatAnchor s w h, rackLabel s pub.currentTurnSeat⟩ : RackDraw)) =
            fun s => s := rfl
      simp [drawOtherRacks, List.map_map, hcomp]
    · have hlen : (drawOtherRacks pub priv w h).length =
          ((List.range 4).filter (fun s => s ≠ priv.seatIndex)).length := by
        simp [drawOtherRacks]
      rw [hlen]
      set m := priv.seatIndex with hm
      interval_cases m <;> decide

/-- Witness for C10 at concrete inputs: anchors are pairwise distinct on a
640 by 480 canvas, and the sample viewer at seat 0 gets racks for seats
1, 2 and 3. -/
theorem claim10_witness :
    seatAnchor 0 640 480 ≠ seatAnchor 2 640 480 ∧
    (drawOtherRacks samplePub samplePriv 640 480).map (fun r => r.seat) =
      (List.range 4).filter (fun s => s ≠ samplePriv.seatIndex) ∧
    (drawOtherRacks samplePub samplePriv 640 480).length = 3 :=
  ⟨claim10_amended.2.1 640 480 (by decide) (by decide) 0 2 (by decide) (by decide)
      (by decide),
   (claim10_amended.2.2 samplePub samplePriv 640 480 (by decide)).1,
   (claim10_amended.2.2 samplePub samplePriv 640 480 (by decide)).2⟩

/-! ## Claim C9 : makeHandKeys produces distinct keys mapping back to tiles

The instance key of tile `t` with occurrence count `n` is the string
`t ++ "_" ++ repr n`. Distinctness of keys across different tiles rests on
decimal representations containing no underscore, so a key splits uniquely
at the underscore that separates the tile id from the count. -/

/-- Applying `Nat.digitChar` to a value below ten is a decimal digit. -/
theorem digitChar_isDigit (m : Nat) (h : m < 10) : (Nat.digitChar m).isDigit = true := by
  interval_cases m <;> decide

/-- Every character `Nat.toDigitsCore` with base ten prepends is a digit. -/
theorem toDigitsCore_ten_digits (fuel : Nat) :
    ∀ (n : Nat) (ds : List Char), (∀ c ∈ ds, c.isDigit = true) →
      ∀ c ∈ Nat.toDigitsCore 10 fuel n ds, c.isDigit = true := by
  induction fuel with
  | zero => intro n ds hds c hc; exact hds c hc
  | succ fuel ih =>
    intro n ds hds c hc
    have hstep : Nat.toDigitsCore 10 (fuel + 1) n ds =
        if n / 10 = 0 then Nat.digitChar (n % 10) :: ds
        else Nat.toDigitsCore 10 fuel (n / 10) (Nat.digitChar (n % 10) :: ds) := rfl
    rw [hstep] at hc
    have hd : (Nat.digitChar (n % 10)).isDigit = true :=
      digitChar_isDigit _ (Nat.mod_lt _ (by norm_num))
    by_cases h0 : n / 10 = 0
    · rw [if_pos h0] at hc
      rcases List.mem_cons.mp hc with h | h
      · rw [h]; exact hd
      · exact hds c h
    · rw [if_neg h0] at hc
      refine ih (n / 10) _ ?_ c hc
      intro c' hc'
      rcases List.mem_cons.mp hc' with h | h
      · rw [h]; exact hd
      · exact hds c' h

/-- Every character of the decimal representation of a natural number is a
digit. -/
theorem repr_data_digits (n : Nat) : ∀ c ∈ (Nat.repr n).data, c.isDigit = true := by
  intro c hc
  have hdef : (Nat.repr n).data = Nat.toDigitsCore 10 (n + 1) n [] := rfl
  rw [hdef] at hc
  exact toDigitsCore_ten_digits (n + 1) n [] (by intro c' h; cases h) c hc

/-- A digit character is not an underscore. -/
theorem isDigit_ne_underscore (c : Char) (h : c.isDigit = true) : c ≠ '_' := by
  intro he
  rw [he] at h
  exact absurd h (by decide)

/-- The decimal representation of a natural number contains no
underscore. -/
theorem repr_no_underscore (n : Nat) : '_' ∉ (Nat.repr n).data := by
  intro h
  exact isDigit_ne_underscore '_' (repr_data_digits n '_' h) rfl

/-- The value of a decimal digit character. -/
def digitVal (c : Char) : Nat := c.toNat - 48

/-- Read a most-significant-first digit list back as a number. -/
def ofDigits (l : List Char) : Nat := l.foldl (fun a c => a * 10 + digitVal c) 0

/-- Function `Nat.toDigitsCore` only prepends to its accumulator. -/
theorem toDigitsCore_ten_append (fuel : Nat) :
    ∀ (n : Nat) (ds : List Char),
      Nat.toDigitsCore 10 fuel n ds = Nat.toDigitsCore 10 fuel n [] ++ ds := by
  induction fuel with
  | zero => intro n ds; rfl
  | succ fuel ih =>
    intro n ds
    have hstep : ∀ ds' : List Char, Nat.toDigitsCore 10 (fuel + 1) n ds' =
        if n / 10 = 0 then Nat.digitChar (n % 10) :: ds'
        else Nat.toDigitsCore 10 fuel (n / 10) (Nat.digitChar (n % 10) :: ds') :=
      fun _ => rfl
    rw [hstep ds, hstep []]
    by_cases h0 : n / 10 = 0
    · rw [if_pos h0, if_pos h0]
      rfl
    · rw [if_neg h0, if_neg h0]
      rw [ih (n / 10) (Nat.digitChar (n % 10) :: ds),
        ih (n / 10) [Nat.digitChar (n % 10)]]
      simp

/-- Reading the base-ten digits of `n` back gives `n`, provided the fuel
suffices. -/
theorem ofDigits_toDigitsCore (fuel : Nat) :
    ∀ n : Nat, n < fuel → ofDigits (Nat.toDigitsCore 10 fuel n []) = n := by
  induction fuel with
  | zero => intro n h; exact absurd h (Nat.not_lt_zero n)
  | succ fuel ih =>
    intro n h
    have hstep : Nat.toDigitsCore 10 (fuel + 1) n [] =
        if n / 10 = 0 then [Nat.digitChar (n % 10)]
        else Nat.toDigitsCore 10 fuel (n / 10) [Nat.digitChar (n % 10)] := rfl
    rw [hstep]
    have hdv : digitVal (Nat.digitChar (n % 10)) = n % 10 := by
      have hlt : n % 10 < 10 := Nat.mod_lt _ (by norm_num)
      set m := n % 10 with hm
      interval_cases m <;> decide
    by_cases h0 : n / 10 = 0
    · rw [if_pos h0]
      have hone : ofDigits [Nat.digitChar (n % 10)] =
          digitVal (Nat.digitChar (n % 10)) := by
        simp [ofDigits]
      rw [hone, hdv]
      omega
    · rw [if_neg h0]
      rw [toDigitsCore_ten_append fuel (n / 10) [Nat.digitChar (n % 10)]]
      have happ : ofDigits (Nat.toDigitsCore 10 fuel (n / 10) [] ++
            [Nat.digitChar (n % 10)]) =
          ofDigits (Nat.toDigitsCore 10 fuel (n / 10) []) * 10 +
            digitVal (Nat.digitChar (n % 10)) := by
        simp [ofDigits, List.foldl_append]
      rw [happ, ih (n / 10) (by omega), hdv]
      omega

/-- Decimal representation is injective. -/
theorem repr_injective {m n : Nat} (h : Nat.repr m = Nat.repr n) : m = n := by
  have hd : Nat.toDigitsCore 10 (m + 1) m [] = Nat.toDigitsCore 10 (n + 1) n [] :=
    congrArg String.data h
  calc m = ofDigits (Nat.toDigitsCore 10 (m + 1) m []) :=
        (ofDigits_toDigitsCore (m + 1) m (Nat.lt_succ_self m)).symm
    _ = ofDigits (Nat.toDigitsCore 10 (n + 1) n []) := by rw [hd]
    _ = n := ofDigits_toDigitsCore (n + 1) n (Nat.lt_succ_self n)

/-- A character list containing exactly one marked separator before an
underscore-free tail splits uniquely. -/
theorem append_underscore_inj (s1 : List Char) :
    ∀ (s2 d1 d2 : List Char), '_' ∉ d1 → '_' ∉ d2 →
      s1 ++ '_' :: d1 = s2 ++ '_' :: d2 → s1 = s2 ∧ d1 = d2 := by
  induction s1 with
  | nil =>
    intro s2 d1 d2 h1 h2 heq
    cases s2 with
    | nil =>
      simp only [List.nil_append, List.cons.injEq] at heq
      exact ⟨rfl, heq.2⟩
    | cons b s2' =>
      simp only [List.nil_append, List.cons_append, List.cons.injEq] at heq
      exfalso
      refine h1 ?_
      rw [heq.2]
      exact List.mem_append.mpr (Or.inr (List.mem_cons_self _ _))
  | cons a s1' ih =>
    intro s2 d1 d2 h1 h2 heq
    cases s2 with
    | nil =>
      simp only [List.cons_append, List.nil_append, List.cons.injEq] at heq
      exfalso
      refine h2 ?_
      rw [← heq.2]
      exact List.mem_append.mpr (Or.inr (List.mem_cons_self _ _))
    | cons b s2' =>
      simp only [List.cons_append, List.cons.injEq] at heq
      obtain ⟨hab, heq'⟩ := heq
      obtain ⟨hs, hd⟩ := ih s2' d1 d2 h1 h2 heq'
      exact ⟨by rw [hab, hs], hd⟩

/-- Instance keys determine their tile id and occurrence count: the
underscore before the count is the last underscore of the key. -/
theorem handKeyStr_inj {t1 t2 : String} {n1 n2 : Nat}
    (h : handKeyStr t1 n1 = handKeyStr t2 n2) : t1 = t2 ∧ n1 = n2 := by
  have hdata : t1.data ++ '_' :: (Nat.repr n1).data =
      t2.data ++ '_' :: (Nat.repr n2).data := by
    have h' := congrArg String.data h
    simpa [handKeyStr, String.data_append] using h'
  obtain ⟨hts, hds⟩ := append_underscore_inj t1.data t2.data
    (Nat.repr n1).data (Nat.repr n2).data
    (repr_no_underscore n1) (repr_no_underscore n2) hdata
  exact ⟨String.ext hts, repr_injective (String.ext hds)⟩

/-- Unfolding `makeHandKeysGo` at a cons. -/
theorem makeHandKeysGo_cons (cnt : String → Option Nat)
    (m : String → Option String) (t : String) (rest : List String) :
    makeHandKeysGo cnt m (t :: rest) =
      (handKeyStr t ((cnt t).getD 0 + 1) ::
        (makeHandKeysGo (bumpCnt cnt t)
          (setKey m (handKeyStr t ((cnt t).getD 0 + 1)) t) rest).1,
       (makeHandKeysGo (bumpCnt cnt t)
          (setKey m (handKeyStr t ((cnt t).getD 0 + 1)) t) rest).2) := rfl

/-- Function `makeHandKeysGo` produces one key per processed tile. -/
theorem makeHandKeysGo_length (l : List String) :
    ∀ (cnt : String → Option Nat) (m : String → Option String),
      (makeHandKeysGo cnt m l).1.length = l.length := by
  induction l with
  | nil => intro cnt m; rfl
  | cons t rest ih =>
    intro cnt m
    rw [makeHandKeysGo_cons]
    simp [ih]

/-- Every key produced from count state `cnt` is an instance key whose
occurrence count exceeds the recorded count of its tile. -/
theorem makeHandKeysGo_mem_bound (l : List String) :
    ∀ (cnt : String → Option Nat) (m : String → Option String) (k : String),
      k ∈ (makeHandKeysGo cnt m l).1 →
      ∃ t n, k = handKeyStr t n ∧ (cnt t).getD 0 + 1 ≤ n := by
  induction l with
  | nil =>
    intro cnt m k hk
    simp [makeHandKeysGo] at hk
  | cons t rest ih =>
    intro cnt m k hk
    rw [makeHandKeysGo_cons] at hk
    simp only [List.mem_cons] at hk
    rcases hk with hk0 | hkr
    · exact ⟨t, (cnt t).getD 0 + 1, hk0, Nat.le_refl _⟩
    · obtain ⟨t', n', heq, hb⟩ := ih _ _ k hkr
      refine ⟨t', n', heq, ?_⟩
      by_cases ht : t' = t
      · rw [ht] at hb ⊢
        simp [bumpCnt] at hb
        omega
      · simpa [bumpCnt, ht] using hb

/-- The key minted for the head tile never reappears among the keys of the
rest, because the bumped count forces strictly larger occurrence counts. -/
theorem makeHandKeysGo_head_notmem (cnt : String → Option Nat)
    (m : String → Option String) (t : String) (rest : List String) :
    handKeyStr t ((cnt t).getD 0 + 1) ∉
      (makeHandKeysGo (bumpCnt cnt t) m rest).1 := by
  intro hmem
  obtain ⟨t', n', heq, hb⟩ := makeHandKeysGo_mem_bound rest _ _ _ hmem
  obtain ⟨ht, hn⟩ := handKeyStr_inj heq
  rw [← ht] at hb
  simp [bumpCnt] at hb
  omega

/-- The keys of `makeHandKeysGo` are pairwise distinct. -/
theorem makeHandKeysGo_nodup (l : List String) :
    ∀ (cnt : String → Option Nat) (m : String → Option String),
      (makeHandKeysGo cnt m l).1.Nodup := by
  induction l with
  | nil => intro cnt m; simp [makeHandKeysGo]
  | cons t rest ih =>
    intro cnt m
    rw [makeHandKeysGo_cons]
    exact List.nodup_cons.mpr ⟨makeHandKeysGo_head_notmem cnt _ t rest, ih _ _⟩

/-- Keys never produced are not touched in the key-to-tile map. -/
theorem makeHandKeysGo_map_notmem (l : List String) :
    ∀ (cnt : String → Option Nat) (m : String → Option String) (x : String),
      x ∉ (makeHandKeysGo cnt m l).1 → (makeHandKeysGo cnt m l).2 x = m x := by
  induction l with
  | nil => intro cnt m x _; rfl
  | cons t rest ih =>
    intro cnt m x hx
    rw [makeHandKeysGo_cons] at hx ⊢
    have hx0 : x ≠ handKeyStr t ((cnt t).getD 0 + 1) := by
      intro he
      exact hx (by rw [he]; exact List.mem_cons_self _ _)
    have hxr : x ∉ (makeHandKeysGo (bumpCnt cnt t)
        (setKey m (handKeyStr t ((cnt t).getD 0 + 1)) t) rest).1 := by
      intro hm
      exact hx (List.mem_cons_of_mem _ hm)
    rw [ih _ _ x hxr]
    simp [setKey, hx0]

/-- The i-th key is an instance key of the i-th tile, and the final map
sends it back to that tile id. -/
theorem makeHandKeysGo_get (l : List String) :
    ∀ (cnt : String → Option Nat) (m : String → Option String)
      (i : Nat) (h : i < l.length) (h2 : i < (makeHandKeysGo cnt m l).1.length),
      (∃ n, (makeHandKeysGo cnt m l).1.get ⟨i, h2⟩ =
        handKeyStr (l.get ⟨i, h⟩) n) ∧
      (makeHandKeysGo cnt m l).2 ((makeHandKeysGo cnt m l).1.get ⟨i, h2⟩) =
        some (l.get ⟨i, h⟩) := by
  induction l with
  | nil => intro cnt m i h h2; exact absurd h (Nat.not_lt_zero i)
  | cons t rest ih =>
    intro cnt m i h h2
    cases i with
    | zero =>
      have hget : (makeHandKeysGo cnt m (t :: rest)).1.get ⟨0, h2⟩ =
          handKeyStr t ((cnt t).getD 0 + 1) := rfl
      constructor
      · exact ⟨(cnt t).getD 0 + 1, hget⟩
      · rw [hget, makeHandKeysGo_cons]
        rw [makeHandKeysGo_map_notmem rest _ _ _
          (makeHandKeysGo_head_notmem cnt _ t rest)]
        simp [setKey]
    | succ i' =>
      have h' : i' < rest.length := Nat.lt_of_succ_lt_succ h
      have h2' : i' < (makeHandKeysGo (bumpCnt cnt t)
          (setKey m (handKeyStr t ((cnt t).getD 0 + 1)) t) rest).1.length := by
        rw [makeHandKeysGo_length rest]
        exact h'
      have hget : (makeHandKeysGo cnt m (t :: rest)).1.get ⟨i' + 1, h2⟩ =
          (makeHandKeysGo (bumpCnt cnt t)
            (setKey m (handKeyStr t ((cnt t).getD 0 + 1)) t) rest).1.get ⟨i', h2'⟩ := rfl
      have hmap : (makeHandKeysGo cnt m (t :: rest)).2 =
          (makeHandKeysGo (bumpCnt cnt t)
            (setKey m (handKeyStr t ((cnt t).getD 0 + 1)) t) rest).2 := rfl
      obtain ⟨hA, hB⟩ := ih (bumpCnt cnt t)
        (setKey m (handKeyStr t ((cnt t).getD 0 + 1)) t) i' h' h2'
      constructor
      · obtain ⟨n, hn⟩ := hA
        exact ⟨n, by rw [hget]; exact hn⟩
      · rw [hget, hmap]
        exact hB

/-- Claim C9: for every hand, `makeHandKeys` returns as many keys as
tiles, the keys are pairwise distinct, each key is its tile id suffixed
with an occurrence count, and `keyToTileId` maps the i-th key back to the
i-th tile id. -/
theorem claim9_makeHandKeys (hand : List String) :
    (makeHandKeys hand).1.length = hand.length ∧
    (makeHandKeys hand).1.Nodup ∧
    ∀ (i : Nat) (h : i < hand.length) (h2 : i < (makeHandKeys hand).1.length),
      (∃ n, (makeHandKeys hand).1.get ⟨i, h2⟩ =
        handKeyStr (hand.get ⟨i, h⟩) n) ∧
      (makeHandKeys hand).2 ((makeHandKeys hand).1.get ⟨i, h2⟩) =
        some (hand.get ⟨i, h⟩) := by
  refine ⟨makeHandKeysGo_length hand _ _, makeHandKeysGo_nodup hand _ _, ?_⟩
  intro i h h2
  exact makeHandKeysGo_get hand _ _ i h h2

/-- Witness for C9 on the hand `["B7", "B7", "D2"]`: three distinct keys,
and the second key (the duplicate) maps back to `"B7"`. -/
theorem claim9_witness :
    (makeHandKeys ["B7", "B7", "D2"]).1.length =
      (["B7", "B7", "D2"] : List String).length ∧
    (makeHandKeys ["B7", "B7", "D2"]).1.Nodup ∧
    (∃ n, (makeHandKeys ["B7", "B7", "D2"]).1.get ⟨1, by decide⟩ =
      handKeyStr ((["B7", "B7", "D2"] : List String).get ⟨1, by decide⟩) n) ∧
    (makeHandKeys ["B7", "B7", "D2"]).2
        ((makeHandKeys ["B7", "B7", "D2"]).1.get ⟨1, by decide⟩) =
      some "B7" :=
  ⟨(claim9_makeHandKeys ["B7", "B7", "D2"]).1,
   (claim9_makeHandKeys ["B7", "B7", "D2"]).2.1,
   ((claim9_makeHandKeys ["B7", "B7", "D2"]).2.2 1 (by decide) (by decide)).1,
   ((claim9_makeHandKeys ["B7", "B7", "D2"]).2.2 1 (by decide) (by decide)).2⟩

/-- Witness for C7 at a concrete call sequence: a join followed by three
actions emits actions with clientSeq values [1, 2, 3], and the first one
is 1. -/
theorem claim7_witness :
    actionSeqs (runRequests initialService
        [.join "r" "alice", .pick "r" "alice", .discard "r" "alice" "B7",
         .claimPung "r" "alice"]).2 =
      List.range' 1 ([Request.join "r" "alice", .pick "r" "alice",
        .discard "r" "alice" "B7", .claimPung "r" "alice"].countP (·.isAction)) ∧
    (actionSeqs (runRequests initialService
        [.join "r" "alice", .pick "r" "alice", .discard "r" "alice" "B7",
         .claimPung "r" "alice"]).2).get ⟨0, by decide⟩ = 0 + 1 :=
  ⟨(claim7_clientSeq_consecutive _).1,
   (claim7_clientSeq_consecutive _).2 0 (by decide)⟩
